import Mathlib

/-!
Verification of the HRRR-AWS cookbook's logical core
(`notebooks/example-workflows/plot-2mt.ipynb`).

The notebook has two procedures: a version-adaptive store resolver
(parse the installed zarr library's version string, branch on the major
version, build two S3 object references and open them as store handles)
and a deterministic render pipeline (combine the handles, convert the
temperature variable's units, reduce to min/max, derive contour levels,
reconstruct a Lambert conformal projection from fetched parameters).

The embedding below translates each of those pieces into Lean:
Python strings become `String`/`List Char`, Python `int()` becomes an
`Option ℤ`-valued parser, numpy floats become exact rationals `ℚ`
(with `numpy.float32` narrowing modelled as exact round-to-nearest-even
binary32 rounding on `ℚ` in the normal range), `np.arange` becomes an
explicit list, and the lazy dask reduction becomes a build-then-force
pair of definitions.
-/

section VersionResolver

/-- Python's `str.split(".")`: split on every occurrence of the dot,
keeping empty components; `"".split(".") == [""]`, so the result is
never the empty list.  Models `package_version.split(".")` in the
notebook's version-check cell. -/
def splitOnDot : List Char → List (List Char)
  | [] => [[]]
  | c :: rest =>
    if c = '.' then [] :: splitOnDot rest
    else
      match splitOnDot rest with
      | [] => [[c]]
      | g :: gs => (c :: g) :: gs

/-- ASCII whitespace accepted (and stripped) by Python's `int()`. -/
def isPyWhitespace (c : Char) : Bool :=
  c = ' ' || c = '\t' || c = '\n' || c = '\r' || c = '\x0b' || c = '\x0c'

/-- Decimal digit test for Python's `int()`. -/
def isPyDigit (c : Char) : Bool :=
  '0' ≤ c && c ≤ '9'

/-- Numeric value of a decimal digit character. -/
def digitVal (c : Char) : ℤ :=
  (c.toNat : ℤ) - ('0'.toNat : ℤ)

/-- Accumulate the value of a list of decimal digits. -/
def digitsVal (ds : List Char) : ℤ :=
  ds.foldl (fun acc c => 10 * acc + digitVal c) 0

/-- After the first digit, Python's `int()` accepts digits optionally
separated by single underscores.  Returns the digits with underscores
removed, or `none` if the remainder is not of that shape. -/
def pyDigitsRest : List Char → Option (List Char)
  | [] => some []
  | '_' :: [] => none
  | '_' :: c :: rest =>
    if isPyDigit c then (pyDigitsRest rest).map (c :: ·) else none
  | c :: rest =>
    if isPyDigit c then (pyDigitsRest rest).map (c :: ·) else none

/-- A nonempty digit group: a digit followed by `pyDigitsRest`. -/
def pyDigits : List Char → Option (List Char)
  | [] => none
  | c :: rest =>
    if isPyDigit c then (pyDigitsRest rest).map (c :: ·) else none

/-- Signed digit group: optional `+`/`-` sign then a digit group. -/
def pySignedDigits : List Char → Option ℤ
  | '+' :: rest => (pyDigits rest).map digitsVal
  | '-' :: rest => (pyDigits rest).map (fun ds => -(digitsVal ds))
  | rest => (pyDigits rest).map digitsVal

/-- Python's `int(s)` on a string, modelled over the code points:
strip surrounding ASCII whitespace, then parse an optional sign and a
nonempty run of decimal digits with optional single underscores between
digits.  Any other input raises `ValueError`, modelled as `none`. -/
def pyInt (cs : List Char) : Option ℤ :=
  pySignedDigits ((cs.dropWhile isPyWhitespace).reverse.dropWhile
    isPyWhitespace).reverse

/-- The notebook's `major_version = int(package_version.split(".")[0])`:
parse the leading dot-separated component of the version string as a
Python integer.  `none` models the `ValueError` raised by `int()`. -/
def major_version (version : String) : Option ℤ :=
  pyInt ((splitOnDot version.data).headD [])

/-- The two access-strategy branches of the notebook's version check. -/
inductive Branch where
  | v3
  | legacy
deriving DecidableEq

/-- The notebook's `if major_version == 3: ... else: ...`: choose the
zarr-v3 access path exactly when the parsed major version equals 3,
otherwise the legacy `S3Map` path.  `none` models the uncaught parse
error, under which neither branch runs. -/
def resolveBranch (version : String) : Option Branch :=
  (major_version version).map (fun n => if n = 3 then Branch.v3 else Branch.legacy)

/-- Arguments passed to `s3fs.S3FileSystem` in each branch. -/
structure S3Config where
  anon : Bool
  asynchronous : Bool
deriving DecidableEq

/-- The `S3FileSystem` arguments used by each branch of the notebook:
`anon=True, asynchronous=True` in the v3 branch and
`anon=True, asynchronous=False` in the legacy branch. -/
def sessionConfig : Branch → S3Config
  | Branch.v3 => ⟨true, true⟩
  | Branch.legacy => ⟨true, false⟩

end VersionResolver

section ObjectReferences

/-- The notebook's `url1`: the coordinate-handle object reference,
built by string concatenation from date, hour, variable and level. -/
def url1 (date hour var level : String) : String :=
  "s3://hrrrzarr/sfc/" ++ date ++ "/" ++ date ++ "_" ++ hour ++ "z_anl.zarr/" ++
    level ++ "/" ++ var ++ "/" ++ level

/-- The notebook's `url2`: the data-variable-handle object reference,
identical to `url1` but without the trailing level component. -/
def url2 (date hour var level : String) : String :=
  "s3://hrrrzarr/sfc/" ++ date ++ "/" ++ date ++ "_" ++ hour ++ "z_anl.zarr/" ++
    level ++ "/" ++ var

/-- Spec-side template for the object references:
`<bucket>/sfc/<date>/<date>_<hour>z_anl.zarr/<level>/<variable>[/<level>]`
with the bucket fixed to `s3://hrrrzarr`; the optional trailing level
component is controlled by `withLevelSuffix`. -/
def objectPathTemplate (date hour level variable_ : String)
    (withLevelSuffix : Bool) : String :=
  "s3://hrrrzarr" ++ "/sfc/" ++ date ++ "/" ++ date ++ "_" ++ hour ++
    "z_anl.zarr/" ++ level ++ "/" ++ variable_ ++
    (if withLevelSuffix then ("/" ++ level) else (""))

/-- The v3 branch's `url1[5:]` / `url2[5:]`: drop the first five code
points of the reference (the `s3://` storage-protocol scheme). -/
def stripS3 (url : String) : String :=
  String.mk (url.data.drop 5)

end ObjectReferences

section ContourLevels

/-- numpy's `np.arange(start, stop, step)` for positive `step`, over
exact rationals: the values `start + step * i` for
`0 ≤ i < ⌈(stop - start) / step⌉`. -/
def arange (start stop step : ℚ) : List ℚ :=
  (List.range (⌈(stop - start) / step⌉).toNat).map (fun i : ℕ => start + step * (i : ℚ))

/-- The notebook's contour-level derivation
`fint = np.arange(np.floor(minTemp.values), np.ceil(maxTemp.values) + 2, 2)`. -/
def fint (minT maxT : ℚ) : List ℚ :=
  arange ((⌊minT⌋ : ℤ) : ℚ) (((⌈maxT⌉ : ℤ) : ℚ) + 2) 2

end ContourLevels

section RenderPipeline

/-- An xarray data array reduced to what the claims need: a units tag
and the flattened list of (exact-rational) values. -/
structure DataArray where
  units : String
  data : List ℚ
deriving DecidableEq

/-- Kelvin-to-Celsius conversion, the affine transform metpy applies
for `convert_units('degC')` on Kelvin data. -/
def kelvinToCelsius (x : ℚ) : ℚ := x - 27315/100

/-- Celsius-to-Kelvin conversion, the inverse affine transform. -/
def celsiusToKelvin (x : ℚ) : ℚ := x + 27315/100

/-- metpy's `convert_units` restricted to the temperature units the
notebook touches: the identity when source and target units agree,
the Kelvin/Celsius affine transforms otherwise, and `none` (a
unit-incompatibility error) for any other pair. -/
def convert_units (a : DataArray) (target : String) : Option DataArray :=
  if a.units = target then some a
  else if a.units = "K" ∧ target = "degC" then
    some ⟨"degC", a.data.map kelvinToCelsius⟩
  else if a.units = "degC" ∧ target = "K" then
    some ⟨"K", a.data.map celsiusToKelvin⟩
  else none

/-- An unforced dask reduction: a description of a pending min or max
over a data array.  Building one performs no computation; only
`compute` (the notebook's `.compute()`) produces a scalar. -/
inductive LazyScalar where
  | reduceMin : DataArray → LazyScalar
  | reduceMax : DataArray → LazyScalar

/-- Minimum of a list of rationals, `none` on the empty list. -/
def listMin : List ℚ → Option ℚ
  | [] => none
  | x :: xs => some (xs.foldl min x)

/-- Maximum of a list of rationals, `none` on the empty list. -/
def listMax : List ℚ → Option ℚ
  | [] => none
  | x :: xs => some (xs.foldl max x)

/-- Force a pending reduction, the notebook's `.compute()`: the only
definition in the model that turns a lazy reduction into a scalar. -/
def compute : LazyScalar → Option ℚ
  | LazyScalar.reduceMin a => listMin a.data
  | LazyScalar.reduceMax a => listMax a.data

/-- The notebook's conversion-and-reduction pipeline:
`airTemp = airTemp.metpy.convert_units('degC')` followed by
`minTemp = airTemp.min().compute()` and
`maxTemp = airTemp.max().compute()`.  The conversion is applied once,
to the array; both reductions are built over the converted array and
then forced. -/
def pipelineMinMax (raw : DataArray) : Option (ℚ × ℚ) :=
  (convert_units raw ("degC")).bind fun airTemp =>
    (compute (LazyScalar.reduceMin airTemp)).bind fun mn =>
      (compute (LazyScalar.reduceMax airTemp)).map fun mx => (mn, mx)

end RenderPipeline

section Projection

/-- Fuel-driven binary length of a natural number (number of binary
digits; zero for zero).  The fuel argument makes the recursion
structural so that concrete values reduce. -/
def bitlenAux : ℕ → ℕ → ℕ
  | 0, _ => 0
  | fuel+1, n => if n = 0 then 0 else bitlenAux fuel (n / 2) + 1

/-- Binary length of a natural number; `n` itself is always enough fuel. -/
def bitlen (n : ℕ) : ℕ := bitlenAux n n

/-- The rational `2 ^ k` for an integer exponent `k`. -/
def qPow2 (k : ℤ) : ℚ :=
  if 0 ≤ k then ((2 ^ k.toNat : ℕ) : ℚ) else ((1 : ℚ) / ((2 ^ (-k).toNat : ℕ) : ℚ))

/-- Round a rational to the nearest integer, ties to even (the IEEE 754
default rounding used by numpy). -/
def rne (q : ℚ) : ℤ :=
  if q - (⌊q⌋ : ℚ) < 1/2 then ⌊q⌋
  else if (1 : ℚ)/2 < q - (⌊q⌋ : ℚ) then ⌊q⌋ + 1
  else if ⌊q⌋ % 2 = 0 then ⌊q⌋ else ⌊q⌋ + 1

/-- Binary exponent of a positive rational: the `e` with
`2 ^ e ≤ q < 2 ^ (e + 1)`, located from the binary lengths of the
numerator and denominator and one comparison. -/
def exponentOf (q : ℚ) : ℤ :=
  let e0 : ℤ := (bitlen q.num.toNat : ℤ) - (bitlen q.den : ℤ)
  if qPow2 e0 ≤ q then e0 else e0 - 1

/-- Round a positive rational to 24 significant binary digits,
round-to-nearest-even: the binary32 significand narrowing. -/
def f32pos (q : ℚ) : ℚ :=
  ((rne (q * qPow2 (23 - exponentOf q)) : ℤ) : ℚ) * qPow2 (exponentOf q - 23)

/-- numpy's `astype('float32')` narrowing, modelled exactly on `ℚ` as
round-to-nearest-even to a 24-bit significand.  The model covers the
normal range (no overflow to infinity, no subnormal flushing), which is
where every projection parameter in scope lives. -/
def f32 (q : ℚ) : ℚ :=
  if q = 0 then 0 else if 0 < q then f32pos q else -f32pos (-q)

/-- cartopy's `ccrs.Globe` restricted to the fields the notebook sets:
optional semimajor and semiminor axes, `none` meaning the library's
default ellipsoid would be used. -/
structure Globe where
  semimajor_axis : Option ℚ
  semiminor_axis : Option ℚ
deriving DecidableEq

/-- cartopy's `ccrs.LambertConformal` restricted to the arguments the
notebook passes: central longitude and latitude, the two standard
parallels, and the globe description. -/
structure LambertConformal where
  central_longitude : ℚ
  central_latitude : ℚ
  standard_parallels : List ℚ
  globe : Globe
deriving DecidableEq

/-- The six parameter names the notebook reads from the fetched
`projparams.json` document. -/
def projParamKeys : List String :=
  ["lat_0", "lat_1", "lat_2", "lon_0", "a", "b"]

/-- The notebook's projection reconstruction: read `lat_0`, `lat_1`,
`lat_2`, `lon_0`, `a` and `b` from the metadata document (modelled as a
key-to-value function), narrow each with `astype('float32')`, and build
the Lambert conformal description with both globe axes passed
explicitly. -/
def projData (doc : String → ℚ) : LambertConformal :=
  let lat_0 := f32 (doc ("lat_0"))
  let lat_1 := f32 (doc ("lat_1"))
  let lat_2 := f32 (doc ("lat_2"))
  let lon_0 := f32 (doc ("lon_0"))
  let a := f32 (doc ("a"))
  let b := f32 (doc ("b"))
  { central_longitude := lon_0
    central_latitude := lat_0
    standard_parallels := [lat_1, lat_2]
    globe := { semimajor_axis := some a, semiminor_axis := some b } }

/-- Spec-side construction without any narrowing: the same Lambert
conformal description built directly from the document's full-precision
values, used to factor `projData` through `f32`. -/
def projDataUnrounded (doc : String → ℚ) : LambertConformal :=
  { central_longitude := doc ("lon_0")
    central_latitude := doc ("lat_0")
    standard_parallels := [doc ("lat_1"), doc ("lat_2")]
    globe := { semimajor_axis := some (doc ("a")),
               semiminor_axis := some (doc ("b")) } }

end Projection

section ContourLemmas

/-- Consecutive entries of an arithmetic-progression list differ by
exactly 2. -/
lemma aps_chain (a : ℚ) (n : ℕ) :
    List.Chain' (fun x y => y = x + 2) ((List.range n).map (fun i : ℕ => a + 2 * (i:ℚ))) := by
  rw [List.chain'_iff_get]
  intro i h
  simp only [List.length_map, List.length_range] at h
  simp only [List.get_eq_getElem, List.getElem_map, List.getElem_range]
  push_cast
  ring

/-- A nonempty arithmetic-progression list starts at its base value. -/
lemma aps_head (a : ℚ) (n : ℕ) (h : 0 < n) :
    (((List.range n).map (fun i : ℕ => a + 2 * (i:ℚ)))).head? = some a := by
  cases n with
  | zero => omega
  | succ m =>
    rw [List.range_succ_eq_map]
    simp

/-- A nonempty arithmetic-progression list ends at the base value plus
twice its length minus one step. -/
lemma aps_last (a : ℚ) (n : ℕ) (h : 0 < n) :
    (((List.range n).map (fun i : ℕ => a + 2 * (i:ℚ)))).getLast? = some (a + 2 * ((n : ℚ) - 1)) := by
  rw [List.getLast?_eq_getElem?]
  simp only [List.length_map, List.length_range]
  rw [List.getElem?_eq_getElem (by simp; omega)]
  simp only [List.getElem_map, List.getElem_range, Option.some_inj]
  have h1 : (1:ℕ) ≤ n := h
  have : ((n - 1 : ℕ) : ℚ) = (n : ℚ) - 1 := by
    push_cast [Nat.cast_sub h1]
    ring
  rw [this]

/-- With `mn ≤ mx` the contour-level list is nonempty. -/
lemma fint_len_pos (mn mx : ℚ) (h : mn ≤ mx) :
    0 < (⌈((((⌈mx⌉ : ℤ) : ℚ) + 2) - ((⌊mn⌋ : ℤ) : ℚ)) / 2⌉).toNat := by
  have hac : (⌊mn⌋ : ℤ) ≤ ⌈mx⌉ :=
    le_trans (Int.floor_le_floor h) (Int.floor_le_ceil mx)
  have hq : ((⌊mn⌋ : ℤ) : ℚ) ≤ ((⌈mx⌉ : ℤ) : ℚ) := by exact_mod_cast hac
  have h2 : (0:ℤ) < ⌈((((⌈mx⌉ : ℤ) : ℚ) + 2) - ((⌊mn⌋ : ℤ) : ℚ)) / 2⌉ :=
    Int.ceil_pos.mpr (by linarith)
  omega

/-- At an integer-valued degenerate range the derived level list is the
single entry at that value. -/
lemma fint_int_case (v : ℚ) (hv : v = ((⌊v⌋ : ℤ) : ℚ)) :
    fint v v = [((⌊v⌋ : ℤ) : ℚ)] := by
  unfold fint arange
  have hc : (⌈v⌉ : ℤ) = ⌊v⌋ := by
    rw [hv, Int.ceil_intCast, Int.floor_intCast]
  rw [hc]
  rw [show ((((⌊v⌋ : ℤ) : ℚ) + 2) - ((⌊v⌋ : ℤ) : ℚ)) / 2 = 1 by ring]
  rw [Int.ceil_one]
  rw [show (1:ℤ).toNat = 1 from rfl]
  rw [show List.range 1 = [0] from rfl]
  norm_num

/-- At a non-integer degenerate range the derived level list is the two
entries at the floor and the floor plus one step, which straddle the
value. -/
lemma fint_frac_case (v : ℚ) (hv : v ≠ ((⌊v⌋ : ℤ) : ℚ)) :
    fint v v = [((⌊v⌋ : ℤ) : ℚ), ((⌊v⌋ : ℤ) : ℚ) + 2] ∧
    ((⌊v⌋ : ℤ) : ℚ) < v ∧ v < ((⌊v⌋ : ℤ) : ℚ) + 2 := by
  have hfl : ((⌊v⌋ : ℤ) : ℚ) ≤ v := Int.floor_le v
  have hflt : ((⌊v⌋ : ℤ) : ℚ) < v := lt_of_le_of_ne hfl (fun e => hv e.symm)
  have hc : (⌈v⌉ : ℤ) = ⌊v⌋ + 1 := by
    have h1 : ⌈v⌉ ≤ ⌊v⌋ + 1 := Int.ceil_le_floor_add_one v
    have h2 : ⌊v⌋ < ⌈v⌉ := by
      by_contra hle
      push_neg at hle
      have : v ≤ ((⌊v⌋ : ℤ) : ℚ) := le_trans (Int.le_ceil v) (by exact_mod_cast hle)
      exact absurd (le_antisymm this hfl) (fun e => hv e)
    omega
  constructor
  · unfold fint arange
    rw [hc]
    rw [show ((((⌊v⌋ + 1 : ℤ) : ℚ) + 2) - ((⌊v⌋ : ℤ) : ℚ)) / 2 = 3/2 by push_cast; ring]
    rw [show (⌈(3/2 : ℚ)⌉ : ℤ) = 2 by rw [Int.ceil_eq_iff]; norm_num]
    rw [show (2:ℤ).toNat = 2 from rfl]
    rw [show List.range 2 = [0, 1] from rfl]
    norm_num
  · exact ⟨hflt, by linarith [Int.lt_floor_add_one v]⟩

end ContourLemmas

section Float32Lemmas

/-- Value of `qPow2` at the exponent used for one tenth. -/
lemma qPow2_neg3 : qPow2 (-3) = 1/8 := by
  rw [qPow2, if_neg (by norm_num), show ((-(-3:ℤ))).toNat = 3 from rfl]
  norm_num

/-- Binary exponent of one tenth. -/
lemma exponentOf_tenth : exponentOf (1/10) = -4 := by
  unfold exponentOf
  rw [show ((1/10 : ℚ).num) = 1 by norm_num, show ((1/10 : ℚ).den) = 10 by norm_num]
  rw [show (1:ℤ).toNat = 1 from rfl]
  rw [show bitlen 1 = 1 from rfl, show bitlen 10 = 4 from rfl]
  norm_num
  rw [qPow2_neg3]
  norm_num

/-- One tenth is not exactly representable in binary32: the narrowing
rounds it up to `13421773 / 2 ^ 27`. -/
lemma f32_tenth : f32 (1/10) = 13421773/134217728 := by
  rw [f32, if_neg (by norm_num), if_pos (by norm_num)]
  rw [f32pos, exponentOf_tenth]
  rw [show ((23:ℤ) - (-4)) = 27 by norm_num]
  rw [show qPow2 27 = 134217728 by
    rw [qPow2, if_pos (by norm_num), show (27:ℤ).toNat = 27 from rfl]; norm_num]
  rw [show ((-4:ℤ) - 23) = -27 by norm_num]
  rw [show qPow2 (-27) = 1/134217728 by
    rw [qPow2, if_neg (by norm_num), show ((-(-27:ℤ))).toNat = 27 from rfl]; norm_num]
  rw [show (1/10 : ℚ) * 134217728 = 67108864/5 by norm_num]
  rw [show rne (67108864/5) = 13421773 by
    rw [rne]
    rw [show (⌊(67108864/5 : ℚ)⌋ : ℤ) = 13421772 by rw [Int.floor_eq_iff]; norm_num]
    rw [if_neg (by norm_num), if_pos (by norm_num)]
    norm_num]
  norm_num

end Float32Lemmas

section ClaimTheorems

/-- C1 (counterexample): the resolver does not select the v3 branch for
every leading major version at least 3 — for version string `4.0.0` the
leading integer is 4, yet the code's `major_version == 3` test sends it
to the legacy branch. -/
theorem resolver_ge3_cx :
    major_version ("4.0.0") = some 4 ∧ (3:ℤ) ≤ 4 ∧
    resolveBranch ("4.0.0") = some Branch.legacy ∧
    ¬ resolveBranch ("4.0.0") = some Branch.v3 :=
  ⟨by decide, by decide, by decide, by decide⟩

/-- C1 (amended): for every version string whose leading dot-separated
component parses as an integer, the resolver selects the v3 branch if
and only if that leading integer equals exactly 3, and the legacy
branch if and only if it differs from 3. -/
theorem resolver_eq3 (s : String) (n : ℤ) (h : major_version s = some n) :
    (resolveBranch s = some Branch.v3 ↔ n = 3) ∧
    (resolveBranch s = some Branch.legacy ↔ n ≠ 3) := by
  unfold resolveBranch
  rw [h]
  by_cases hn : n = 3
  · subst hn; simp
  · simp [hn]

/-- C1 (witness): the amended classification evaluated at version
string `3.0.8`, whose leading integer is 3. -/
theorem resolver_eq3_witness :
    (resolveBranch ("3.0.8") = some Branch.v3 ↔ (3:ℤ) = 3) ∧
    (resolveBranch ("3.0.8") = some Branch.legacy ↔ (3:ℤ) ≠ 3) :=
  resolver_eq3 ("3.0.8") 3 (by decide)

/-- C2 (counterexample): at the degenerate range min = max = 10 the
derived contour sequence is the single-element list `[10]`, not a
sequence of at least two levels straddling 10. -/
theorem fint_degenerate_cx :
    fint 10 10 = [10] ∧ (fint 10 10).length = 1 := by
  have h10 : (10:ℚ) = ((⌊(10:ℚ)⌋ : ℤ) : ℚ) := by
    rw [show (⌊(10:ℚ)⌋ : ℤ) = 10 by rw [Int.floor_eq_iff]; norm_num]
    norm_num
  have h := fint_int_case 10 h10
  rw [← h10] at h
  exact ⟨h, by rw [h]; rfl⟩

/-- C2 (amended): at a degenerate range min = max = v the derived
sequence has two distinct levels straddling v exactly when v is not an
integer; when v is an integer the sequence is the single element
`[v]`. -/
theorem fint_degenerate (v : ℚ) :
    (v = ((⌊v⌋ : ℤ) : ℚ) → fint v v = [v]) ∧
    (v ≠ ((⌊v⌋ : ℤ) : ℚ) →
      fint v v = [((⌊v⌋ : ℤ) : ℚ), ((⌊v⌋ : ℤ) : ℚ) + 2] ∧
      ((⌊v⌋ : ℤ) : ℚ) < v ∧ v < ((⌊v⌋ : ℤ) : ℚ) + 2) := by
  constructor
  · intro hv
    rw [fint_int_case v hv, ← hv]
  · exact fint_frac_case v

/-- C2 (witness): the amended degenerate behaviour evaluated at the
non-integer value 10.5, where the sequence `[10, 12]` straddles it. -/
theorem fint_degenerate_witness :
    fint (21/2) (21/2) = [((⌊(21/2 : ℚ)⌋ : ℤ) : ℚ), ((⌊(21/2 : ℚ)⌋ : ℤ) : ℚ) + 2] ∧
    ((⌊(21/2 : ℚ)⌋ : ℤ) : ℚ) < 21/2 ∧ (21/2 : ℚ) < ((⌊(21/2 : ℚ)⌋ : ℤ) : ℚ) + 2 :=
  (fint_degenerate (21/2)).2 (by
    rw [show (⌊(21/2 : ℚ)⌋ : ℤ) = 10 by rw [Int.floor_eq_iff]; norm_num]
    norm_num)

/-- C3: for min ≤ max the derived contour sequence starts at the floor
of the minimum, steps by exactly 2 between consecutive entries, is
strictly increasing (hence duplicate-free), and its last entry is at
least the ceiling of the maximum; in particular for min = -5.3 and
max = 7.8 it is `[-6, -4, -2, 0, 2, 4, 6, 8]`, starting at -6 and
ending at 8 ≥ 8. -/
theorem fint_progression :
    (∀ mn mx : ℚ, mn ≤ mx →
      (fint mn mx).head? = some ((⌊mn⌋ : ℤ) : ℚ) ∧
      List.Chain' (fun x y => y = x + 2) (fint mn mx) ∧
      List.Pairwise (· < ·) (fint mn mx) ∧
      ∃ w : ℚ, (fint mn mx).getLast? = some w ∧ ((⌈mx⌉ : ℤ) : ℚ) ≤ w) ∧
    fint (-53/10) (78/10) = [-6, -4, -2, 0, 2, 4, 6, 8] ∧
    ((⌊(-53/10 : ℚ)⌋ : ℤ) : ℚ) = -6 ∧
    (fint (-53/10) (78/10)).getLast? = some 8 := by
  have hconc : fint (-53/10) (78/10) = [-6, -4, -2, 0, 2, 4, 6, 8] := by
    unfold fint arange
    have h1 : (⌈(78/10:ℚ)⌉:ℤ) = 8 := by
      rw [Int.ceil_eq_iff]; norm_num
    have h2 : (⌊(-53/10:ℚ)⌋:ℤ) = -6 := by
      rw [Int.floor_eq_iff]; norm_num
    rw [h1, h2]
    rw [show ((⌈(((8:ℤ):ℚ) + 2 - ((-6:ℤ):ℚ)) / 2⌉:ℤ)).toNat = 8 by
      rw [show (((8:ℤ):ℚ) + 2 - ((-6:ℤ):ℚ)) / 2 = ((8:ℤ):ℚ) by norm_num]
      rw [Int.ceil_intCast]
      rfl]
    rw [show List.range 8 = [0,1,2,3,4,5,6,7] from rfl]
    norm_num
  refine ⟨?_, hconc, ?_, by rw [hconc]; rfl⟩
  · intro mn mx h
    have hpos := fint_len_pos mn mx h
    unfold fint arange
    refine ⟨aps_head _ _ hpos, aps_chain _ _, ?_, ?_⟩
    · have hc := aps_chain ((⌊mn⌋ : ℤ) : ℚ)
        (⌈((((⌈mx⌉ : ℤ) : ℚ) + 2) - ((⌊mn⌋ : ℤ) : ℚ)) / 2⌉).toNat
      refine List.chain'_iff_pairwise.mp (hc.imp ?_)
      intro x y hxy
      rw [hxy]; linarith
    · refine ⟨_, aps_last _ _ hpos, ?_⟩
      set N : ℤ := ⌈((((⌈mx⌉ : ℤ) : ℚ) + 2) - ((⌊mn⌋ : ℤ) : ℚ)) / 2⌉ with hN
      have hle : ((((⌈mx⌉ : ℤ) : ℚ) + 2) - ((⌊mn⌋ : ℤ) : ℚ)) / 2 ≤ (N : ℚ) := Int.le_ceil _
      have hN0 : (0:ℤ) ≤ N := by omega
      have hNn : ((N.toNat : ℕ) : ℚ) = (N : ℚ) := by exact_mod_cast Int.toNat_of_nonneg hN0
      rw [hNn]
      linarith
  · rw [show (⌊(-53/10:ℚ)⌋:ℤ) = -6 by rw [Int.floor_eq_iff]; norm_num]
    norm_num

/-- C3 (witness): the progression properties evaluated at
min = -5.3, max = 7.8. -/
theorem fint_progression_witness :
    (fint (-53/10) (78/10)).head? = some ((⌊(-53/10 : ℚ)⌋ : ℤ) : ℚ) ∧
    List.Chain' (fun x y => y = x + 2) (fint (-53/10) (78/10)) ∧
    List.Pairwise (· < ·) (fint (-53/10) (78/10)) ∧
    ∃ w : ℚ, (fint (-53/10) (78/10)).getLast? = some w ∧ ((⌈(78/10 : ℚ)⌉ : ℤ) : ℚ) ≤ w :=
  fint_progression.1 (-53/10) (78/10) (by norm_num)

/-- C4: whenever the leading dot-separated component of the version
string does not parse as a Python integer the resolver raises the parse
error (models as `none`) and selects neither branch; in particular the
empty string fails this way. -/
theorem resolver_parse_error :
    (∀ s : String, major_version s = none → resolveBranch s = none) ∧
    major_version ("") = none ∧ resolveBranch ("") = none := by
  refine ⟨?_, by decide, by decide⟩
  intro s h
  unfold resolveBranch
  rw [h]
  rfl

/-- C4 (witness): the error propagation evaluated at the unparseable
version string `zarr`. -/
theorem resolver_parse_error_witness : resolveBranch ("zarr") = none :=
  resolver_parse_error.1 ("zarr") (by decide)

/-- C5: for date 20210214, hour 12, variable TMP, level 2m_above_ground
the two constructed object references are exactly the expected strings,
and for all inputs both references follow the template
`<bucket>/sfc/<date>/<date>_<hour>z_anl.zarr/<level>/<variable>[/<level>]`
with bucket `s3://hrrrzarr`. -/
theorem object_reference_paths :
    url1 ("20210214") ("12") ("TMP") ("2m_above_ground") =
      "s3://hrrrzarr/sfc/20210214/20210214_12z_anl.zarr/2m_above_ground/TMP/2m_above_ground" ∧
    url2 ("20210214") ("12") ("TMP") ("2m_above_ground") =
      "s3://hrrrzarr/sfc/20210214/20210214_12z_anl.zarr/2m_above_ground/TMP" ∧
    (∀ date hour var level : String,
      url1 date hour var level = objectPathTemplate date hour level var true ∧
      url2 date hour var level = objectPathTemplate date hour level var false) := by
  refine ⟨rfl, rfl, ?_⟩
  intro date hour var level
  constructor
  · unfold url1 objectPathTemplate
    apply String.ext
    simp [String.data_append, List.append_assoc]
  · unfold url2 objectPathTemplate
    apply String.ext
    simp [String.data_append, List.append_assoc]

/-- C6: every reference beginning with the five-character protocol
prefix `s3://` is mapped by the v3 branch's slice `url[5:]` to exactly
that reference with the prefix removed (prepending the prefix recovers
the reference); in particular the two notebook references produce the
expected handle paths. -/
theorem strip_protocol_v3 :
    (∀ s rest : String, s = "s3://" ++ rest →
      stripS3 s = rest ∧ "s3://" ++ stripS3 s = s) ∧
    stripS3 (url1 ("20210214") ("12") ("TMP") ("2m_above_ground")) =
      "hrrrzarr/sfc/20210214/20210214_12z_anl.zarr/2m_above_ground/TMP/2m_above_ground" ∧
    stripS3 (url2 ("20210214") ("12") ("TMP") ("2m_above_ground")) =
      "hrrrzarr/sfc/20210214/20210214_12z_anl.zarr/2m_above_ground/TMP" := by
  refine ⟨?_, rfl, rfl⟩
  intro s rest h
  subst h
  cases rest with
  | mk l => exact ⟨rfl, rfl⟩

/-- C6 (witness): the prefix strip evaluated at the reference
`s3://hrrrzarr`. -/
theorem strip_protocol_v3_witness :
    stripS3 ("s3://hrrrzarr") = "hrrrzarr" ∧
    "s3://" ++ stripS3 ("s3://hrrrzarr") = "s3://hrrrzarr" :=
  strip_protocol_v3.1 ("s3://hrrrzarr") ("hrrrzarr") (by rfl)

/-- C7: whichever branch the version check takes, the S3 session is
opened with anonymous credentials, and the credential flag is identical
in the two branches (they differ only in the asynchronous flag). -/
theorem anon_credentials_both_branches :
    (∀ (s : String) (b : Branch), resolveBranch s = some b →
      (sessionConfig b).anon = true) ∧
    (sessionConfig Branch.v3).anon = (sessionConfig Branch.legacy).anon := by
  refine ⟨?_, rfl⟩
  intro s b _
  cases b <;> rfl

/-- C7 (witness): the anonymous-credential guarantee evaluated on the
legacy branch reached from version string `2.18.3`. -/
theorem anon_credentials_both_branches_witness :
    (sessionConfig Branch.legacy).anon = true :=
  anon_credentials_both_branches.1 ("2.18.3") Branch.legacy (by decide)

/-- C8: for a Kelvin-tagged nonempty array the pipeline converts the
units to Celsius exactly once (mapping the affine Kelvin-to-Celsius
transform over the data, tagging the result `degC`) and the two forced
reductions return exactly the minimum and maximum of the converted
array as the two scalar outputs. -/
theorem convert_then_reduce (raw : DataArray) (hu : raw.units = "K")
    (hne : raw.data ≠ []) :
    ∃ mn mx : ℚ,
      pipelineMinMax raw = some (mn, mx) ∧
      convert_units raw ("degC") = some ⟨"degC", raw.data.map kelvinToCelsius⟩ ∧
      listMin (raw.data.map kelvinToCelsius) = some mn ∧
      listMax (raw.data.map kelvinToCelsius) = some mx := by
  have hconv : convert_units raw ("degC") =
      some ⟨"degC", raw.data.map kelvinToCelsius⟩ := by
    unfold convert_units
    rw [hu]
    rw [if_neg (by decide), if_pos (by exact ⟨rfl, rfl⟩)]
  cases hd : raw.data with
  | nil => exact absurd hd hne
  | cons x xs =>
    rw [hd] at hconv
    refine ⟨(xs.map kelvinToCelsius).foldl min (kelvinToCelsius x),
            (xs.map kelvinToCelsius).foldl max (kelvinToCelsius x), ?_, hconv, rfl, rfl⟩
    unfold pipelineMinMax
    rw [hconv]
    rfl

/-- C8 (witness): the pipeline evaluated on a two-element Kelvin
array. -/
theorem convert_then_reduce_witness :
    ∃ mn mx : ℚ,
      pipelineMinMax ⟨"K", [27315/100, 28315/100]⟩ = some (mn, mx) ∧
      convert_units ⟨"K", [27315/100, 28315/100]⟩ ("degC") =
        some ⟨"degC", List.map kelvinToCelsius [27315/100, 28315/100]⟩ ∧
      listMin (List.map kelvinToCelsius [27315/100, 28315/100]) = some mn ∧
      listMax (List.map kelvinToCelsius [27315/100, 28315/100]) = some mx :=
  convert_then_reduce ⟨"K", [27315/100, 28315/100]⟩ rfl (by simp)

/-- C9: the projection reconstruction passes both globe axes explicitly
(the semimajor and semiminor fields are `some` of the narrowed `a` and
`b` document values, never the library default `none`), draws its other
fields from `lat_0`, `lon_0`, `lat_1` and `lat_2`, and depends on the
document only through the six named parameters. -/
theorem projection_six_params :
    (∀ doc : String → ℚ,
      (projData doc).globe.semimajor_axis = some (f32 (doc ("a"))) ∧
      (projData doc).globe.semiminor_axis = some (f32 (doc ("b"))) ∧
      (projData doc).globe.semimajor_axis ≠ none ∧
      (projData doc).globe.semiminor_axis ≠ none ∧
      (projData doc).central_latitude = f32 (doc ("lat_0")) ∧
      (projData doc).central_longitude = f32 (doc ("lon_0")) ∧
      (projData doc).standard_parallels = [f32 (doc ("lat_1")), f32 (doc ("lat_2"))]) ∧
    (∀ doc1 doc2 : String → ℚ,
      (∀ k ∈ projParamKeys, doc1 k = doc2 k) → projData doc1 = projData doc2) := by
  constructor
  · intro doc
    exact ⟨rfl, rfl, by simp [projData], by simp [projData], rfl, rfl, rfl⟩
  · intro doc1 doc2 h
    unfold projData
    rw [h ("lat_0") (by simp [projParamKeys]), h ("lat_1") (by simp [projParamKeys]),
        h ("lat_2") (by simp [projParamKeys]), h ("lon_0") (by simp [projParamKeys]),
        h ("a") (by simp [projParamKeys]), h ("b") (by simp [projParamKeys])]

/-- C9 (witness): two documents that agree on the six projection keys
but differ elsewhere yield the same projection description. -/
theorem projection_six_params_witness :
    projData (fun _ => 1) = projData (fun k => if k = "other" then 5 else 1) :=
  projection_six_params.2 (fun _ => 1) (fun k => if k = "other" then 5 else 1) (by decide)

/-- C10: the projection is built from float32-narrowed parameter
values: `projData` factors through applying the binary32 rounding `f32`
to every document value before the unrounded construction, and the
narrowing is a genuine loss of precision — a document entry of 1/10
yields a central latitude of 13421773/2 ^ 27, not 1/10. -/
theorem projection_f32_narrowing :
    (∀ doc : String → ℚ, projData doc = projDataUnrounded (fun k => f32 (doc k))) ∧
    (projData (fun _ => 1/10)).central_latitude = f32 (1/10) ∧
    f32 (1/10) = 13421773/134217728 ∧
    (projData (fun _ => 1/10)).central_latitude ≠ (1/10 : ℚ) := by
  refine ⟨fun doc => rfl, rfl, f32_tenth, ?_⟩
  rw [show (projData (fun _ => 1/10)).central_latitude = f32 (1/10) from rfl, f32_tenth]
  norm_num

end ClaimTheorems
